import Mathlib

/-!
Shallow embedding of the rust-chat-server session hub
(src/command.rs, src/protocol.rs, src/filter.rs, src/room.rs,
src/server.rs, src/types.rs, src/user.rs, src/error.rs).

Strings are modelled as lists of characters; Rust `str::trim`,
`str::split_once` and friends are reimplemented below with the same
observable semantics on the inputs the claims mention.
-/

/-- Strings from the Rust source, modelled as character lists. -/
abbrev Str := List Char

/-- Model of Rust `str::trim_start`: drop leading whitespace characters. -/
def trimLeft : Str → Str
  | [] => []
  | c :: cs => if c.isWhitespace then trimLeft cs else c :: cs

/-- Model of Rust `str::trim_end`: drop trailing whitespace characters. -/
def trimRight (l : Str) : Str :=
  (trimLeft l.reverse).reverse

/-- Model of Rust `str::trim`. -/
def trim (l : Str) : Str :=
  trimRight (trimLeft l)

/-- Model of Rust `str::split_once(sep)`: split at the first occurrence of
`sep`, returning the part before and the part after; `none` when `sep` does
not occur. -/
def splitOnce (sep : Char) : Str → Option (Str × Str)
  | [] => none
  | c :: cs =>
    if c = sep then some ([], cs)
    else (splitOnce sep cs).map (fun p => (c :: p.1, p.2))

/-- Error type from src/error.rs (`ChatError`); the `Network` payload is
irrelevant to the claims and elided. -/
inductive ChatError where
  | Network : ChatError
  | Parse : Str → ChatError
  | UnknownRoom : Str → ChatError
  | UnknownUser : Str → ChatError
deriving DecidableEq

/-- Commands from src/command.rs (`Command`). -/
inductive Command where
  | Join (room : Str)
  | Nick (name : Str)
  | Kick (target : Str)
  | Quit
  | Help
  | List
deriving DecidableEq

/-- The verb dispatch of `Command::parse` (the `match cmd` block in
src/command.rs lines 42-71), split out of the parser for proof convenience:
`cmd` is the verb and `args` the already-trimmed argument string. -/
def parseVerb (cmd args : Str) : Except ChatError Command :=
  if cmd = "join".data then
    if args = [] then .error (.Parse "/join requires a room name".data)
    else .ok (.Join args)
  else if cmd = "nick".data then
    if args = [] then .error (.Parse "/nick requires a name".data)
    else .ok (.Nick args)
  else if cmd = "kick".data then
    if args = [] then .error (.Parse "/kick requires a username".data)
    else .ok (.Kick args)
  else if cmd = "quit".data then .ok .Quit
  else if cmd = "help".data then .ok .Help
  else if cmd = "list".data then .ok .List
  else .error (.Parse ("unknown command: /".data ++ cmd))

/-- Model of `Command::parse` (src/command.rs lines 30-72): trim, require a
leading '/', split the remainder at the first space into verb and trimmed
argument string, dispatch on the verb. -/
def Command.parse (input : Str) : Except ChatError Command :=
  match trim input with
  | '/' :: rest =>
    match splitOnce ' ' rest with
    | some (c, a) => parseVerb c (trim a)
    | none => parseVerb rest []
  | _ => .error (.Parse "commands start with /".data)

/-- Frames from src/protocol.rs (`Frame`); the `Cow` borrowing is a
lifetime optimization with no observable effect, so fields are plain
strings. -/
inductive Frame where
  | Msg (username body : Str)
  | Join (room : Str)
  | Nick (name : Str)
  | Quit
deriving DecidableEq

/-- Model of `parse_frame` (src/protocol.rs lines 38-83). -/
def parse_frame (line : Str) : Except ChatError Frame :=
  match splitOnce ':' (trim line) with
  | none => .error (.Parse "missing ':' delimiter".data)
  | some (cmd, payload) =>
    if cmd = "MSG".data then
      match splitOnce ':' payload with
      | none => .error (.Parse "MSG requires username:body".data)
      | some (username, body) =>
        if trim username = [] then .error (.Parse "empty username".data)
        else .ok (.Msg (trim username) body)
    else if cmd = "JOIN".data then
      if trim payload = [] then .error (.Parse "JOIN requires a room name".data)
      else .ok (.Join (trim payload))
    else if cmd = "NICK".data then
      if trim payload = [] then .error (.Parse "NICK requires a name".data)
      else .ok (.Nick (trim payload))
    else if cmd = "QUIT".data then .ok .Quit
    else .error (.Parse ("unknown command: ".data ++ cmd))

/-- Filter decisions from src/filter.rs (`FilterAction`). -/
inductive FilterAction where
  | Allow
  | Modify (s : Str)
  | Block (s : Str)
deriving DecidableEq

/-- The shape of a registered filter (src/filter.rs: a boxed closure from
`(username, body)` to a `FilterAction`); within a single `apply` call each
filter is invoked at most once, so its possible internal state is
invisible and a pure function suffices. -/
abbrev FilterFn := Str → Str → FilterAction

/-- Whether a `FilterAction` is a `Block`. -/
def FilterAction.isBlock : FilterAction → Bool
  | .Block _ => true
  | _ => false

/-- The loop of `FilterRegistry::apply` (src/filter.rs lines 45-55): run the
filters in registration order, threading the current body forward; a
`Block` is returned immediately as an error. -/
def foldFilters (username : Str) : List FilterFn → Str → Except Str Str
  | [], current => .ok current
  | f :: fs, current =>
    match f username current with
    | .Allow => foldFilters username fs current
    | .Modify new_body => foldFilters username fs new_body
    | .Block reason => .error reason

/-- Model of `FilterRegistry::apply` (src/filter.rs lines 42-62): after the
loop, answer `Modify` when the final body differs from the input and
`Allow` otherwise. -/
def FilterRegistry.apply (filters : List FilterFn) (username body : Str) :
    FilterAction :=
  match foldFilters username filters body with
  | .error reason => .Block reason
  | .ok current => if current ≠ body then .Modify current else .Allow

/-- Connected-user record from src/user.rs (`User`); the TCP stream is I/O
glue and elided — deliveries through it are modelled as `Event`s below. -/
structure User where
  id : Nat
  username : Str
deriving DecidableEq

/-- Room record from src/room.rs (`Room`); the `Arc<Mutex<...>>` around the
member list is the locking discipline, invisible in the sequential model. -/
structure Room where
  id : Nat
  name : Str
  members : List Nat
deriving DecidableEq

/-- Model of `Room::new` (src/room.rs lines 19-25). -/
def Room.new (id : Nat) (name : Str) : Room :=
  ⟨id, name, []⟩

/-- Model of `Room::add_member` (src/room.rs lines 27-32): push the id only
when it is not already present. -/
def Room.add_member (r : Room) (uid : Nat) : Room :=
  if uid ∈ r.members then r else { r with members := r.members ++ [uid] }

/-- Model of `Room::remove_member` (src/room.rs lines 34-36): retain every
id different from the removed one. -/
def Room.remove_member (r : Room) (uid : Nat) : Room :=
  { r with members := r.members.filter (fun m => m != uid) }

/-- Model of `Room::member_ids` (src/room.rs lines 38-40): a snapshot of the
member list (in the pure model, the list value itself). -/
def Room.member_ids (r : Room) : List Nat :=
  r.members

/-- One outgoing delivery: `User::send(text)` on the recipient's stream, or
a `writeln!` on the acting connection's own write stream. -/
inductive Event where
  | deliver (uid : Nat) (text : Str)
deriving DecidableEq

/-- Registry state from src/server.rs (`Server`); the TCP listener and
`ServerConfig` are I/O glue and elided. -/
structure ServerState where
  users : List (Option User)
  rooms : List Room
  filters : List FilterFn
  next_user_id : Nat

/-- Model of `self.users.get(uid.index()).and_then(|u| u.as_ref())`. -/
def getUser (s : ServerState) (uid : Nat) : Option User :=
  (s.users[uid]?).join

/-- The display-name lookup used by `join_room` and `leave_room`
(src/server.rs lines 95-100 and 122-127), with the "unknown" fallback. -/
def usernameOf (s : ServerState) (uid : Nat) : Str :=
  match getUser s uid with
  | some u => u.username
  | none => "unknown".data

/-- Rendering of `RoomId`'s `Display` impl (src/types.rs lines 42-46). -/
def roomIdStr (rid : Nat) : Str :=
  ("room#" ++ toString rid).data

/-- Rendering of `Message`'s `Display` impl (src/message.rs lines 48-52). -/
def msgString (username body : Str) : Str :=
  "<".data ++ username ++ "> ".data ++ body

/-- The join announcement `format!` of src/server.rs line 102. -/
def joinAnnounce (username room_name : Str) : Str :=
  "* ".data ++ username ++ " joined #".data ++ room_name

/-- The leave announcement `format!` of src/server.rs line 129. -/
def leaveAnnounce (username room_name : Str) : Str :=
  "* ".data ++ username ++ " left #".data ++ room_name

/-- The blocked-message notice of src/server.rs line 347. -/
def blockNotice (reason : Str) : Str :=
  "* Message blocked: ".data ++ reason

/-- The fan-out loop shared by `join_room`, `leave_room` and `broadcast`
(src/server.rs lines 103-109, 130-136, 155-161): deliver `text` to every
member id in the snapshot that differs from `excl` and has a live user
slot. -/
def fanout (users : List (Option User)) (excl : Nat) (members : List Nat)
    (text : Str) : List Event :=
  members.filterMap fun m =>
    if m ≠ excl then
      match (users[m]?).join with
      | some _ => some (Event.deliver m text)
      | none => none
    else none

/-- Model of `Server::join_room` (src/server.rs lines 84-112): fail with
`UnknownRoom` when the room id is unknown; otherwise add the member FIRST,
snapshot the members AFTER adding, and announce to every other member. -/
def Server.join_room (s : ServerState) (uid rid : Nat) :
    Except ChatError (ServerState × List Event) :=
  match s.rooms[rid]? with
  | none => .error (.UnknownRoom (roomIdStr rid))
  | some room =>
    let room' := room.add_member uid
    let s' := { s with rooms := s.rooms.set rid room' }
    let announce := joinAnnounce (usernameOf s uid) room.name
    .ok (s', fanout s.users uid room'.member_ids announce)

/-- Model of `Server::leave_room` (src/server.rs lines 114-139): silently
return when the room id is unknown; otherwise announce to every other
member of the pre-removal snapshot, then remove the member. -/
def Server.leave_room (s : ServerState) (uid rid : Nat) :
    ServerState × List Event :=
  match s.rooms[rid]? with
  | none => (s, [])
  | some room =>
    let announce := leaveAnnounce (usernameOf s uid) room.name
    let events := fanout s.users uid room.member_ids announce
    let room' := room.remove_member uid
    ({ s with rooms := s.rooms.set rid room' }, events)

/-- Model of `Server::broadcast` (src/server.rs lines 141-164): fail with
`UnknownRoom` when the room id is unknown; otherwise deliver the rendered
message text to every member except the sender. -/
def Server.broadcast (s : ServerState) (rid sender : Nat) (text : Str) :
    Except ChatError (List Event) :=
  match s.rooms[rid]? with
  | none => .error (.UnknownRoom (roomIdStr rid))
  | some room => .ok (fanout s.users sender room.member_ids text)

/-- The non-blocked tail of `Server::send_chat_message` (src/server.rs
lines 352-364): echo the rendered message to the sender's own user slot,
then broadcast it to the rest of the room. -/
def sendAllowed (s : ServerState) (uid : Nat) (username final_body : Str)
    (rid : Nat) : Except ChatError (List Event) :=
  let text := msgString username final_body
  let echo := match getUser s uid with
    | some _ => [Event.deliver uid text]
    | none => []
  match Server.broadcast s rid uid text with
  | .error e => .error e
  | .ok evs => .ok (echo ++ evs)

/-- Model of `Server::send_chat_message` (src/server.rs lines 334-365): run
the filter pipeline; on `Block` write only the blocked notice to the
sender's connection; otherwise echo and broadcast the (possibly modified)
body. -/
def Server.send_chat_message (s : ServerState) (uid : Nat)
    (username body : Str) (rid : Nat) : Except ChatError (List Event) :=
  match FilterRegistry.apply s.filters username body with
  | .Allow => sendAllowed s uid username body rid
  | .Modify new_body => sendAllowed s uid username new_body rid
  | .Block reason => .ok [Event.deliver uid (blockNotice reason)]

/-- Model of `Server::remove_user` (src/server.rs lines 66-74): remove the
id from every room's member list, then clear the user slot if it exists
(`List.set` is a no-op out of bounds, like the `get_mut` guard). -/
def Server.remove_user (s : ServerState) (uid : Nat) : ServerState :=
  { s with
      rooms := s.rooms.map (fun r => r.remove_member uid),
      users := s.users.set uid none }

/-- Concrete registry state for the C1 witness: alice and bob in the
lobby, no filters registered. -/
def stateA : ServerState :=
  ⟨[some ⟨0, "alice".data⟩, some ⟨1, "bob".data⟩],
   [⟨0, "lobby".data, [0, 1]⟩], [], 2⟩

/-- Concrete registry state for the C2 witness: alice in the lobby, bob
about to join. -/
def stateB : ServerState :=
  ⟨[some ⟨0, "alice".data⟩, some ⟨1, "bob".data⟩],
   [⟨0, "lobby".data, [0]⟩], [], 2⟩

/-- Concrete registry state for the C4 counterexample and witness: one
lobby room, so room id 5 is unknown. -/
def stateD : ServerState :=
  ⟨[], [⟨0, "lobby".data, []⟩], [], 0⟩

/-- Concrete registry state for the C5 counterexample: user 7 is ALREADY a
member of the lobby before the join. -/
def stateE : ServerState :=
  ⟨[], [⟨0, "lobby".data, [7]⟩], [], 0⟩

/-- Concrete registry state for the C5 witness: user 7 is not yet a member
of the lobby. -/
def stateF : ServerState :=
  ⟨[some ⟨7, "carol".data⟩], [⟨0, "lobby".data, []⟩], [], 8⟩

/-! ### Helper lemmas -/

lemma trimLeft_append (l₁ l₂ : Str) :
    trimLeft (l₁ ++ l₂)
      = if trimLeft l₁ = [] then trimLeft l₂ else trimLeft l₁ ++ l₂ := by
  induction l₁ with
  | nil => simp [trimLeft]
  | cons c cs ih =>
    by_cases h : c.isWhitespace
    · simpa [trimLeft, h] using ih
    · simp [trimLeft, h]

lemma mem_trimLeft {x : Char} {l : Str} (h : x ∈ trimLeft l) : x ∈ l := by
  induction l with
  | nil => simp [trimLeft] at h
  | cons c cs ih =>
    by_cases hc : c.isWhitespace
    · rw [trimLeft, if_pos hc] at h
      exact List.mem_cons_of_mem _ (ih h)
    · rwa [trimLeft, if_neg hc] at h

lemma mem_trimRight {x : Char} {l : Str} (h : x ∈ trimRight l) : x ∈ l := by
  unfold trimRight at h
  rw [List.mem_reverse] at h
  have := mem_trimLeft h
  rwa [List.mem_reverse] at this

lemma mem_trim {x : Char} {l : Str} (h : x ∈ trim l) : x ∈ l :=
  mem_trimLeft (mem_trimRight h)

lemma splitOnce_eq_none {sep : Char} {l : Str} :
    splitOnce sep l = none ↔ sep ∉ l := by
  induction l with
  | nil => simp [splitOnce]
  | cons c cs ih =>
    by_cases h : c = sep
    · subst h; simp [splitOnce]
    · simp [splitOnce, h, ih, Ne.symm h]

lemma splitOnce_append {sep : Char} (l₁ l₂ : Str) (h : sep ∉ l₁) :
    splitOnce sep (l₁ ++ sep :: l₂) = some (l₁, l₂) := by
  induction l₁ with
  | nil => simp [splitOnce]
  | cons c cs ih =>
    have hc : c ≠ sep := fun e => h (e ▸ List.mem_cons_self c cs)
    simp [splitOnce, hc, ih (fun hm => h (List.mem_cons_of_mem _ hm))]

lemma trim_quit_payload (p : Str) :
    ∃ q, trim ("QUIT:".data ++ p) = "QUIT:".data ++ q := by
  unfold trim
  rw [trimLeft_append]
  have h0 : trimLeft "QUIT:".data = "QUIT:".data := rfl
  rw [h0, if_neg (by decide)]
  unfold trimRight
  rw [List.reverse_append, trimLeft_append]
  by_cases hp : trimLeft p.reverse = []
  · rw [if_pos hp]
    exact ⟨[], by decide⟩
  · rw [if_neg hp]
    refine ⟨(trimLeft p.reverse).reverse, ?_⟩
    rw [List.reverse_append, List.reverse_reverse]

lemma foldFilters_append (u : Str) (fs₁ fs₂ : List FilterFn) (b : Str) :
    foldFilters u (fs₁ ++ fs₂) b
      = match foldFilters u fs₁ b with
        | .ok b' => foldFilters u fs₂ b'
        | .error r => .error r := by
  induction fs₁ generalizing b with
  | nil => simp [foldFilters]
  | cons f fs ih =>
    simp only [List.cons_append, foldFilters]
    cases f u b <;> simp [ih]

lemma fanout_eq (users : List (Option User)) (excl : Nat) (members : List Nat)
    (t : Str)
    (h : ∀ m ∈ members, m ≠ excl → ((users[m]?).join).isSome = true) :
    fanout users excl members t
      = (members.filter (fun m => m != excl)).map
          (fun m => Event.deliver m t) := by
  induction members with
  | nil => rfl
  | cons m ms ih =>
    have hms : ∀ x ∈ ms, x ≠ excl → ((users[x]?).join).isSome = true :=
      fun x hx => h x (List.mem_cons_of_mem _ hx)
    have hrec := ih hms
    by_cases he : m = excl
    · have hstep : fanout users excl (m :: ms) t = fanout users excl ms t := by
        unfold fanout
        rw [List.filterMap_cons, if_neg (by simpa using he)]
      rw [hstep, hrec, List.filter_cons]
      simp [he]
    · obtain ⟨u, hu⟩ :=
        Option.isSome_iff_exists.mp (h m (List.mem_cons_self m ms) he)
      have hstep : fanout users excl (m :: ms) t
          = Event.deliver m t :: fanout users excl ms t := by
        unfold fanout
        rw [List.filterMap_cons, if_pos he, hu]
      rw [hstep, hrec, List.filter_cons]
      simp [he]

lemma filter_ne_length {l : List Nat} {a : Nat} (hn : l.Nodup) (ha : a ∈ l) :
    (l.filter (fun m => m != a)).length + 1 = l.length := by
  have he : l.erase a = l.filter (fun m => m != a) :=
    List.Nodup.erase_eq_filter hn a
  have := List.length_erase_add_one ha
  rwa [he] at this

lemma filter_ne_of_not_mem {l : List Nat} {a : Nat} (h : a ∉ l) :
    l.filter (fun m => m != a) = l := by
  refine List.filter_eq_self.mpr ?_
  intro x hx
  simp only [bne_iff_ne, ne_eq]
  rintro rfl
  exact h hx

lemma remove_member_idem (r : Room) (uid : Nat) :
    (r.remove_member uid).remove_member uid = r.remove_member uid := by
  cases r
  simp [Room.remove_member, List.filter_filter]

lemma parseVerb_total (cmd args : Str) :
    (∃ c, parseVerb cmd args = .ok c)
      ∨ (∃ m, parseVerb cmd args = .error (.Parse m)) := by
  unfold parseVerb
  split_ifs <;> first
    | (left; exact ⟨_, rfl⟩)
    | (right; exact ⟨_, rfl⟩)

/-! ### Claim theorems -/

/-- C3: `FilterRegistry::apply` runs the filters in registration order
threading the possibly-modified body forward; the first filter returning
`Block` makes `apply` return that `Block` immediately, independently of any
later filter; if no filter blocks, `apply` returns `Modify finalBody`
exactly when the final body differs from the input and `Allow` otherwise. -/
theorem filter_apply_pipeline (filters : List FilterFn) (username body : Str) :
    (∀ fs₁ f fs₂ b' r, filters = fs₁ ++ f :: fs₂ →
        foldFilters username fs₁ body = .ok b' →
        f username b' = .Block r →
        FilterRegistry.apply filters username body = .Block r)
    ∧ (∀ final, foldFilters username filters body = .ok final →
        FilterRegistry.apply filters username body
          = if final ≠ body then .Modify final else .Allow) := by
  constructor
  · rintro fs₁ f fs₂ b' r rfl h1 h2
    unfold FilterRegistry.apply
    rw [foldFilters_append, h1]
    simp [foldFilters, h2]
  · intro final h
    unfold FilterRegistry.apply
    rw [h]

/-- C3 witness: with a blocking first filter and a modifying second filter,
`apply` returns the `Block` of the first filter; the second filter's
presence is irrelevant. -/
theorem filter_apply_pipeline_witness :
    FilterRegistry.apply
        [fun _ _ => FilterAction.Block "spam".data,
         fun _ _ => FilterAction.Modify "y".data]
        "u".data "orig".data = .Block "spam".data :=
  (filter_apply_pipeline _ "u".data "orig".data).1
    [] (fun _ _ => FilterAction.Block "spam".data)
    [fun _ _ => FilterAction.Modify "y".data]
    "orig".data "spam".data rfl rfl rfl

/-- C8: a room starts with no duplicate members and `add_member` and
`remove_member` preserve that; `add_member` is the identity when the id is
already present; `remove_member` is the identity when the id is absent;
`member_ids` is a snapshot of the member list value. -/
theorem room_membership_invariants (i : Nat) (n : Str) (r : Room) (uid : Nat)
    (h : r.members.Nodup) :
    (Room.new i n).members.Nodup
    ∧ (r.add_member uid).members.Nodup
    ∧ (r.remove_member uid).members.Nodup
    ∧ (uid ∈ r.members → r.add_member uid = r)
    ∧ (uid ∉ r.members → r.remove_member uid = r)
    ∧ r.member_ids = r.members := by
  refine ⟨List.nodup_nil, ?_, h.filter _, ?_, ?_, rfl⟩
  · unfold Room.add_member
    by_cases hm : uid ∈ r.members
    · simpa [hm] using h
    · simp only [hm, if_false]
      simp [List.nodup_append, h, hm]
  · intro hm
    simp [Room.add_member, hm]
  · intro hm
    have hf := filter_ne_of_not_mem hm
    cases r
    simp only [Room.remove_member] at hf ⊢
    simp [hf]

/-- C8 witness: inserting an already-present id and removing an absent id
both leave the room unchanged, and adding a fresh id keeps the member list
duplicate-free. -/
theorem room_membership_invariants_witness :
    (Room.mk 0 "lobby".data [1, 2]).add_member 1 = Room.mk 0 "lobby".data [1, 2]
    ∧ (Room.mk 0 "lobby".data [1, 2]).remove_member 3
        = Room.mk 0 "lobby".data [1, 2]
    ∧ ((Room.mk 0 "lobby".data [1, 2]).add_member 3).members.Nodup := by
  have h1 := room_membership_invariants 0 "x".data
    (Room.mk 0 "lobby".data [1, 2]) 1 (by decide)
  have h3 := room_membership_invariants 0 "x".data
    (Room.mk 0 "lobby".data [1, 2]) 3 (by decide)
  exact ⟨h1.2.2.2.1 (by decide), h3.2.2.2.2.1 (by decide), h3.2.1⟩

/-- C9: `Server::remove_user` is idempotent — running it a second time for
the same user id leaves the registry state exactly as after the first run
(the user slot stays cleared and no room membership changes). -/
theorem remove_user_idempotent (s : ServerState) (uid : Nat) :
    Server.remove_user (Server.remove_user s uid) uid
      = Server.remove_user s uid := by
  cases s with
  | mk users rooms filters next =>
    simp only [Server.remove_user, List.map_map, List.set_set,
      ServerState.mk.injEq, true_and, and_true]
    exact List.map_congr_left fun r _ => remove_member_idem r uid

/-- C10: `parse_frame` accepts `"QUIT:" ++ p` for every payload `p`,
ignoring the payload, while the bare `"QUIT"` without a colon is a parse
error. -/
theorem quit_payload_tolerated :
    (∀ p : Str, parse_frame ("QUIT:".data ++ p) = .ok .Quit)
    ∧ parse_frame "QUIT".data
        = .error (.Parse "missing ':' delimiter".data) := by
  constructor
  · intro p
    obtain ⟨q, hq⟩ := trim_quit_payload p
    unfold parse_frame
    rw [hq]
    have hsplit : splitOnce ':' ("QUIT:".data ++ q)
        = some ("QUIT".data, q) := by
      exact @splitOnce_append ':' "QUIT".data q (by decide)
    rw [hsplit]
    rfl
  · rfl

/-- C6: `Command::parse` is total — every input yields either a `Command`
or a `Parse` error; `"/join"` without an argument, a missing required
argument for `/nick` or `/kick`, an unknown verb, and an input that does
not start with '/' (after the parser's own whitespace trim) are all
`Parse` errors, while `"/join general"` yields `Join` with room
`"general"`. -/
theorem command_parse_total :
    (∀ input : Str, (∃ c, Command.parse input = .ok c)
        ∨ (∃ m, Command.parse input = .error (.Parse m)))
    ∧ Command.parse "/join".data
        = .error (.Parse "/join requires a room name".data)
    ∧ Command.parse "/join general".data = .ok (.Join "general".data)
    ∧ Command.parse "/nick".data
        = .error (.Parse "/nick requires a name".data)
    ∧ Command.parse "/kick".data
        = .error (.Parse "/kick requires a username".data)
    ∧ Command.parse "/frobnicate x".data
        = .error (.Parse "unknown command: /frobnicate".data)
    ∧ (∀ input : Str, (trim input).head? ≠ some '/' →
        Command.parse input
          = .error (.Parse "commands start with /".data)) := by
  refine ⟨?_, rfl, rfl, rfl, rfl, rfl, ?_⟩
  · intro input
    unfold Command.parse
    split
    · split
      · exact parseVerb_total _ _
      · exact parseVerb_total _ _
    · right; exact ⟨_, rfl⟩
  · intro input hne
    unfold Command.parse
    split
    · rename_i rest heq
      exact absurd (by rw [heq]; rfl) hne
    · rfl

/-- C6 witness: a plain chat line that does not start with '/' is rejected
with the "commands start with /" parse error. -/
theorem command_parse_total_witness :
    Command.parse "hello world".data
      = .error (.Parse "commands start with /".data) :=
  command_parse_total.2.2.2.2.2.2 "hello world".data (by decide)

/-- C7: `parse_frame` yields `Join "general"` for `"JOIN:general"`,
`Msg "alice" "hello"` for `"MSG:alice:hello"`, a parse error for the
unknown type `"BOGUS:x"`, a parse error for every line without a ':'
delimiter, and parse errors for an empty MSG username, an empty JOIN room
and an empty NICK name. -/
theorem frame_parse_cases :
    parse_frame "JOIN:general".data = .ok (.Join "general".data)
    ∧ parse_frame "MSG:alice:hello".data
        = .ok (.Msg "alice".data "hello".data)
    ∧ parse_frame "BOGUS:x".data
        = .error (.Parse "unknown command: BOGUS".data)
    ∧ (∀ line : Str, ':' ∉ line →
        parse_frame line = .error (.Parse "missing ':' delimiter".data))
    ∧ parse_frame "MSG::hello".data = .error (.Parse "empty username".data)
    ∧ parse_frame "JOIN:".data
        = .error (.Parse "JOIN requires a room name".data)
    ∧ parse_frame "NICK:".data
        = .error (.Parse "NICK requires a name".data) := by
  refine ⟨rfl, rfl, rfl, ?_, rfl, rfl, rfl⟩
  intro line h
  have hnot : ':' ∉ trim line := fun hm => h (mem_trim hm)
  unfold parse_frame
  rw [splitOnce_eq_none.mpr hnot]

/-- C7 witness: a line without any ':' delimiter is rejected with the
missing-delimiter parse error. -/
theorem frame_parse_cases_witness :
    parse_frame "noframe".data
      = .error (.Parse "missing ':' delimiter".data) :=
  frame_parse_cases.2.2.2.1 "noframe".data (by decide)

/-- Event count of the non-blocked send path: one echo to the registered
sender plus one delivery to every other registered member. -/
lemma sendAllowed_count (s : ServerState) (uid rid : Nat)
    (username fb : Str) (room : Room)
    (hroom : s.rooms[rid]? = some room)
    (hmem : uid ∈ room.members)
    (hnodup : room.members.Nodup)
    (hreg : ∀ m ∈ room.members, ((s.users[m]?).join).isSome = true) :
    ∃ evs, sendAllowed s uid username fb rid = .ok evs
      ∧ evs.length = room.members.length := by
  obtain ⟨u, hu⟩ := Option.isSome_iff_exists.mp (hreg uid hmem)
  have hfan := fanout_eq s.users uid room.members (msgString username fb)
    (fun m hm _ => hreg m hm)
  refine ⟨Event.deliver uid (msgString username fb)
      :: (room.members.filter (fun m => m != uid)).map
          (fun m => Event.deliver m (msgString username fb)), ?_, ?_⟩
  · unfold sendAllowed Server.broadcast
    rw [hroom]
    have hg : getUser s uid = some u := hu
    simp only [hg, Room.member_ids, hfan]
    rfl
  · simp only [List.length_cons, List.length_map]
    exact filter_ne_length hnodup hmem

/-- C1: when the sender is a registered member of an existing room whose N
members are all registered, a non-blocked chat message produces exactly N
outgoing events (echo to the sender included), and a blocked one produces
exactly the single blocked-notice event to the sender. -/
theorem chat_message_count (s : ServerState) (uid rid : Nat)
    (username body : Str) (room : Room)
    (hroom : s.rooms[rid]? = some room)
    (hmem : uid ∈ room.members)
    (hnodup : room.members.Nodup)
    (hreg : ∀ m ∈ room.members, ((s.users[m]?).join).isSome = true) :
    ((FilterRegistry.apply s.filters username body).isBlock = false →
      ∃ evs, Server.send_chat_message s uid username body rid = .ok evs
        ∧ evs.length = room.members.length)
    ∧ (∀ reason,
        FilterRegistry.apply s.filters username body = .Block reason →
        Server.send_chat_message s uid username body rid
          = .ok [Event.deliver uid (blockNotice reason)]) := by
  constructor
  · intro hnb
    rcases happly : FilterRegistry.apply s.filters username body with _ | nb | r
    · obtain ⟨evs, h1, h2⟩ :=
        sendAllowed_count s uid rid username body room hroom hmem hnodup hreg
      refine ⟨evs, ?_, h2⟩
      unfold Server.send_chat_message
      rw [happly]
      exact h1
    · obtain ⟨evs, h1, h2⟩ :=
        sendAllowed_count s uid rid username nb room hroom hmem hnodup hreg
      refine ⟨evs, ?_, h2⟩
      unfold Server.send_chat_message
      rw [happly]
      exact h1
    · rw [happly] at hnb
      simp [FilterAction.isBlock] at hnb
  · intro reason hb
    unfold Server.send_chat_message
    rw [hb]

/-- C1 witness: alice and bob in the lobby (N = 2) and no filters — alice's
message yields exactly 2 events; with a blocking filter installed, exactly
the single blocked notice. -/
theorem chat_message_count_witness :
    ∃ evs, Server.send_chat_message stateA 0 "alice".data "hi".data 0
      = .ok evs ∧ evs.length = 2 :=
  (chat_message_count stateA 0 0 "alice".data "hi".data
      ⟨0, "lobby".data, [0, 1]⟩ rfl (by decide) (by decide)
      (by decide)).1 (by decide)

/-- C2: for a registered user and an existing room, `join_room` stores the
membership first, snapshots the members after adding (so the snapshot
contains the joiner), and announces "* name joined #room" to exactly the
snapshot members different from the joiner; the joiner receives no event. -/
theorem join_room_announce (s : ServerState) (uid rid : Nat) (room : Room)
    (u : User)
    (hroom : s.rooms[rid]? = some room)
    (huser : getUser s uid = some u)
    (hreg : ∀ m ∈ (room.add_member uid).members,
        ((s.users[m]?).join).isSome = true) :
    Server.join_room s uid rid
      = .ok ({ s with rooms := s.rooms.set rid (room.add_member uid) },
          ((room.add_member uid).members.filter (fun m => m != uid)).map
            (fun m => Event.deliver m (joinAnnounce u.username room.name)))
    ∧ uid ∈ (room.add_member uid).members
    ∧ ∀ t, Event.deliver uid t
        ∉ ((room.add_member uid).members.filter (fun m => m != uid)).map
            (fun m => Event.deliver m (joinAnnounce u.username room.name)) := by
  refine ⟨?_, ?_, ?_⟩
  · have hfan := fanout_eq s.users uid (room.add_member uid).members
      (joinAnnounce u.username room.name) (fun m hm _ => hreg m hm)
    unfold Server.join_room
    rw [hroom]
    simp only [Room.member_ids, usernameOf, huser, hfan]
  · unfold Room.add_member
    by_cases hm : uid ∈ room.members
    · simp [hm]
    · simp [hm]
  · intro t ht
    obtain ⟨m, hm, heq⟩ := List.mem_map.mp ht
    have hne := (List.mem_filter.mp hm).2
    injection heq with h1 h2
    rw [h1] at hne
    simp at hne

/-- C2 witness: bob (user 1) joins the lobby where alice (user 0) already
is — the result adds bob to the member list and delivers the join
announcement to alice only. -/
theorem join_room_announce_witness :
    Server.join_room stateB 1 0
      = .ok ({ stateB with rooms := [⟨0, "lobby".data, [0, 1]⟩] },
          [Event.deliver 0 (joinAnnounce "bob".data "lobby".data)]) := by
  have h := (join_room_announce stateB 1 0 ⟨0, "lobby".data, [0]⟩
    ⟨1, "bob".data⟩ rfl rfl (by decide)).1
  exact h

/-- C4 counterexample: on the unknown room id 5, `leave_room` does NOT
signal `UnknownRoom` — it silently returns with no error, no events and an
unchanged state (src/server.rs lines 115-117 `let ... else return`), while
`join_room` on the very same input does return `UnknownRoom`. -/
theorem leave_room_silent_counterexample :
    Server.leave_room stateD 0 5 = (stateD, [])
    ∧ Server.join_room stateD 0 5
        = .error (.UnknownRoom "room#5".data) :=
  ⟨rfl, rfl⟩

/-- C4 amended: operations on a nonexistent room id — `join_room` and
`broadcast` return `UnknownRoom`; `leave_room` silently no-ops (returns
unchanged state, no events, no error). -/
theorem unknown_room_amended (s : ServerState) (uid rid : Nat) (text : Str)
    (h : s.rooms[rid]? = none) :
    Server.join_room s uid rid = .error (.UnknownRoom (roomIdStr rid))
    ∧ Server.broadcast s rid uid text
        = .error (.UnknownRoom (roomIdStr rid))
    ∧ Server.leave_room s uid rid = (s, []) := by
  unfold Server.join_room Server.broadcast Server.leave_room
  rw [h]
  exact ⟨rfl, rfl, rfl⟩

/-- C4 witness: with only the lobby present, room id 5 is unknown —
`join_room` and `broadcast` fail with `UnknownRoom`, `leave_room` no-ops. -/
theorem unknown_room_amended_witness :
    Server.join_room stateD 0 5 = .error (.UnknownRoom (roomIdStr 5))
    ∧ Server.broadcast stateD 5 0 "hi".data
        = .error (.UnknownRoom (roomIdStr 5))
    ∧ Server.leave_room stateD 0 5 = (stateD, []) :=
  unknown_room_amended stateD 0 5 "hi".data rfl

/-- C5 counterexample: user 7 is already a lobby member; after join then
leave the lobby's member list is `[]`, not the pre-join `[7]` — joining a
room one is already in and then leaving does NOT restore membership. -/
theorem join_leave_counterexample :
    (Server.join_room stateE 7 0).map
        (fun p => (((Server.leave_room p.1 7 0).1.rooms[0]?).map
          Room.members))
      = .ok (some [])
    ∧ (stateE.rooms[0]?).map Room.members = some [7]
    ∧ some ([] : List Nat) ≠ some [7] :=
  ⟨rfl, rfl, by decide⟩

/-- C5 amended: provided the user is NOT already a member of the existing
room, `join_room` followed by `leave_room` restores the room's member list
to exactly its pre-join value. -/
theorem join_then_leave_restores (s : ServerState) (uid rid : Nat)
    (room : Room)
    (hroom : s.rooms[rid]? = some room)
    (hnot : uid ∉ room.members) :
    ∃ s₁ evs, Server.join_room s uid rid = .ok (s₁, evs)
      ∧ ((Server.leave_room s₁ uid rid).1.rooms[rid]?).map Room.members
          = some room.members := by
  have hlt : rid < s.rooms.length := (List.getElem?_eq_some.mp hroom).1
  refine ⟨{ s with rooms := s.rooms.set rid (room.add_member uid) },
    fanout s.users uid (room.add_member uid).member_ids
      (joinAnnounce (usernameOf s uid) room.name), ?_, ?_⟩
  · unfold Server.join_room
    rw [hroom]
  · have hget : (s.rooms.set rid (room.add_member uid))[rid]?
        = some (room.add_member uid) :=
      List.getElem?_set_eq_of_lt _ (by simpa using hlt)
    unfold Server.leave_room
    simp only [hget]
    simp only [List.set_set]
    have hfin : (s.rooms.set rid
        ((room.add_member uid).remove_member uid))[rid]?
        = some ((room.add_member uid).remove_member uid) :=
      List.getElem?_set_eq_of_lt _ (by simpa using hlt)
    have hmembers : ((room.add_member uid).remove_member uid).members
        = room.members := by
      unfold Room.add_member Room.remove_member
      rw [if_neg hnot]
      simp only [List.filter_append]
      rw [filter_ne_of_not_mem hnot]
      simp
    simp [hfin, hmembers]

/-- C5 witness: carol (user 7) is not in the empty lobby; joining then
leaving restores the lobby's member list to its pre-join value `[]`. -/
theorem join_then_leave_restores_witness :
    ∃ s₁ evs, Server.join_room stateF 7 0 = .ok (s₁, evs)
      ∧ ((Server.leave_room s₁ 7 0).1.rooms[0]?).map Room.members
          = some ([] : List Nat) :=
  join_then_leave_restores stateF 7 0 ⟨0, "lobby".data, []⟩ rfl (by decide)
